import Mathlib

/-!
Verification of the adapt-authoring-middleware repository.

This file shallowly embeds the file-upload validation and ingestion
pipeline and the rate limiter of the repository:

* `lib/utils/validateUploadedFiles.js` (the latest revision of the
  validator, the one exercised by the test suite; exported as
  `validateUploadedFiles`) is embedded as `processFile` /
  `validateUploadedFiles` below.  The type sniffer `fileTypeFromFile`
  (package `file-type`) is an external collaborator and is passed as a
  function argument `sniff : String -> Option String` (the `?.mime`
  projection of its result).  The mutation of `f.mimetype` is embedded
  by returning the updated file record; the `VALIDATION_FAILED` throw is
  embedded as `Except.error` carrying the collected violation list.
* `lib/MiddlewareModule.js`: the formidable parse callback of
  `fileUploadParser`, the unzip option wiring of `fileUploadParser` and
  `urlUploadParser`, the axios catch handler of `urlUploadParser`, and
  the rate-limiter middleware returned by `rateLimiter`.

JavaScript-specific behaviour (truthiness, `undefined` property reads,
block scoping of `const`) is embedded explicitly where the embedded code
depends on it; every such point is documented at the definition.
-/

/-- A file record in the shape produced by formidable (and mimicked by
`urlUploadParser`): `mimetype` is the client-declared content type
(`Option` because formidable may yield `null`, and because the validator
overwrites it with the possibly-`undefined` sniffer output), `size` is
the byte size on disk. -/
structure UploadedFile where
  mimetype : Option String
  originalFilename : String
  filepath : String
  size : Nat
deriving DecidableEq, Repr

/-- The file-upload options after `setDefaultFileOptions` has filled in
defaults (`MiddlewareModule.js`, `setDefaultFileOptions`): the fields
relevant to the embedded logic, with the source's default values. -/
structure FileUploadOptions where
  expectedFileTypes : List String
  maxFileSize : Nat
  unzip : Bool := false
  removeZipSource : Bool := true
deriving DecidableEq, Repr

/-- A validation violation: `unexpectedFileTypes` embeds
`UNEXPECTED_FILE_TYPES.setData({ expectedFileTypes, invalidFiles, mimetypes })`,
`fileExceedsMaxSize` embeds
`FILE_EXCEEDS_MAX_SIZE.setData({ size, maxSize })` (the source formats the
byte counts with `bytes()` for display; the embedded data is the raw
numbers). -/
inductive Violation where
  | unexpectedFileTypes (expectedFileTypes : List String)
      (invalidFiles : List String) (mimetypes : List (Option String))
  | fileExceedsMaxSize (size : Nat) (maxSize : Nat)
deriving DecidableEq, Repr

/-- JavaScript truthiness of a string-or-undefined value: `undefined`
and the empty string are falsy, every other string is truthy.  Embeds
the `!f.mimetype` test of the validator. -/
def jsFalsy : Option String → Bool
  | none => true
  | some s => s == ""

/-- `list.includes(x)` where `x : Option String` models a JavaScript
value that may be `undefined` (or `null`): `includes(undefined)` is
false against a list of strings. -/
def optIncludes (types : List String) : Option String → Bool
  | none => false
  | some s => types.contains s

/-- Node's `path.extname`: the substring of the basename from its last
dot, except that a dot that is the first character of the basename does
not start an extension, and a basename of exactly `..` has no extension.
Trailing path separators are ignored.  Transcribed from Node's
`path.posix.extname`. -/
def extname (s : String) : String :=
  let rev := s.toList.reverse.dropWhile (fun c => c = '/')
  let revBase := rev.takeWhile (fun c => ¬ (c = '/'))
  let revExt := revBase.takeWhile (fun c => ¬ (c = '.'))
  if revExt.length = revBase.length then ""
  else if revExt.length + 1 = revBase.length then ""
  else if revBase = ['.', '.'] then ""
  else String.mk ('.' :: revExt.reverse)

/-- The mimetype a file ends up with after the sniffing step of
`validateUploadedFiles` (`lib/utils/validateUploadedFiles.js` lines
19-23): the sniffer's output, except that when that output is falsy and
the original filename has extension `.srt`, the fixed synthetic subtitle
type `application/x-subrip` is substituted. -/
def sniffedMime (sniff : String → Option String) (f : UploadedFile) : Option String :=
  let m := sniff f.filepath
  if jsFalsy m ∧ extname f.originalFilename = ".srt" then
    some "application/x-subrip"
  else m

/-- The size check of `validateUploadedFiles`
(`lib/utils/validateUploadedFiles.js` lines 28-30):
`if (f.size > options.maxFileSize)` push `FILE_EXCEEDS_MAX_SIZE`. -/
def sizeViolations (options : FileUploadOptions) (f : UploadedFile) : List Violation :=
  if f.size > options.maxFileSize then
    [Violation.fileExceedsMaxSize f.size options.maxFileSize]
  else []

/-- The per-file result of the validator: the (possibly mutated) file
record, the violations pushed for this file (type violation first, then
size violation, matching the statement order in the source), and whether
`fileTypeFromFile` was invoked for this file. -/
structure FileResult where
  file : UploadedFile
  violations : List Violation
  sniffed : Bool
deriving DecidableEq, Repr

/-- The body of the `filesArr.map` callback of `validateUploadedFiles`
(`lib/utils/validateUploadedFiles.js` lines 17-31): if the declared
mimetype is in `expectedFileTypes`, only the size check runs and the
sniffer is not consulted; otherwise `f.mimetype` is overwritten with the
sniffer output (with the `.srt` fallback) and an
`UNEXPECTED_FILE_TYPES` violation is pushed when the new mimetype is
still not in `expectedFileTypes`.  The size check runs in both cases. -/
def processFile (sniff : String → Option String) (options : FileUploadOptions)
    (f : UploadedFile) : FileResult :=
  if optIncludes options.expectedFileTypes f.mimetype then
    { file := f, violations := sizeViolations options f, sniffed := false }
  else
    let m := sniffedMime sniff f
    let typeViolations :=
      if optIncludes options.expectedFileTypes m then []
      else [Violation.unexpectedFileTypes options.expectedFileTypes
              [f.originalFilename] [m]]
    { file := { f with mimetype := m }
      violations := typeViolations ++ sizeViolations options f
      sniffed := true }

/-- `Object.values(filesObj).reduce((memo, f) => memo.concat(f), [])`:
flatten the formidable files object (a map from field name to an array
of files) into one array. -/
def flattenFiles (filesObj : List (String × List UploadedFile)) : List UploadedFile :=
  (filesObj.map (fun kv => kv.2)).foldl (fun memo f => memo ++ f) []

/-- `validateUploadedFiles(req, filesObj, options)`
(`lib/utils/validateUploadedFiles.js`): validate every file across all
form fields; if any violations were collected, throw one aggregated
`VALIDATION_FAILED` error carrying all of them (embedded as
`Except.error` with the violation list), otherwise succeed.  On success
the value is the list of (possibly mutated) file records, embedding the
in-place mutation of the input files object.  The `req` parameter of the
source is only used to translate violation messages for display and is
omitted. -/
def validateUploadedFiles (sniff : String → Option String)
    (filesObj : List (String × List UploadedFile)) (options : FileUploadOptions) :
    Except (List Violation) (List UploadedFile) :=
  let results := (flattenFiles filesObj).map (processFile sniff options)
  let assetErrors := results.foldl (fun memo r => memo ++ r.violations) []
  if assetErrors.isEmpty then Except.ok (results.map (fun r => r.file))
  else Except.error assetErrors

/-- Whether `fileTypeFromFile` was invoked for any file during a
validation call (derived instrumentation over `processFile`, used to
state sniffer-consultation properties). -/
def sniffedAny (sniff : String → Option String)
    (filesObj : List (String × List UploadedFile)) (options : FileUploadOptions) : Bool :=
  ((flattenFiles filesObj).map (processFile sniff options)).any (fun r => r.sniffed)

/-- Whether a violation list contains an `UNEXPECTED_FILE_TYPES` violation. -/
def hasTypeViolation (violations : List Violation) : Bool :=
  violations.any fun v =>
    match v with
    | Violation.unexpectedFileTypes _ _ _ => true
    | Violation.fileExceedsMaxSize _ _ => false

/-- Whether a violation list contains a `FILE_EXCEEDS_MAX_SIZE` violation. -/
def hasSizeViolation (violations : List Violation) : Bool :=
  violations.any fun v =>
    match v with
    | Violation.unexpectedFileTypes _ _ _ => false
    | Violation.fileExceedsMaxSize _ _ => true

/-- The zip MIME types recognized by the module (`MiddlewareModule.js`,
`zipTypes` getter). -/
def zipTypes : List String :=
  ["application/zip", "application/x-zip-compressed"]

/-- `isZip(mimeType)` (`MiddlewareModule.js`): membership in `zipTypes`;
`includes(undefined)` is false. -/
def isZip : Option String → Bool
  | none => false
  | some s => zipTypes.contains s

/-- The `removeSource` value `fileUploadParser` passes to `unzip`
(`MiddlewareModule.js` line 177): `options.removeZipSource || true`. -/
def fileUploadRemoveSourceArg (options : FileUploadOptions) : Bool :=
  options.removeZipSource || true

/-- The `removeSource` value `urlUploadParser` passes to `unzip`
(`MiddlewareModule.js` line 243): the source reads
`options.removeSource`, a property that no code in the repository ever
sets (the documented option, defaulted by `setDefaultFileOptions`, is
named `removeZipSource`), so the read yields `undefined`, embedded as
`none`. -/
def urlUploadRemoveSourceArg (_options : FileUploadOptions) : Option Bool :=
  none

/-- JavaScript truthiness of a boolean-or-undefined option value, as the
`zipper` package's `removeSource` option consumes it: `undefined` is
falsy (the source archive is kept). -/
def jsTruthyOptBool : Option Bool → Bool
  | none => false
  | some b => b

/-- A JavaScript runtime fault: reading a property of `undefined`
(TypeError) or referencing a variable that is not in scope
(ReferenceError).  Either one thrown inside the embedded handlers makes
the request fail without any error being reported through the module's
error-reporting path. -/
inductive JsFault where
  | typeErrorUndefined (prop : String)
  | referenceError (name : String)
deriving DecidableEq, Repr

/-- The response attached to an axios rejection, when present (absent
for transport failures such as a refused connection or DNS failure). -/
structure AxiosResponse where
  status : Nat
deriving DecidableEq, Repr

/-- An axios rejection value: `code` such as `ERR_INVALID_URL` or
`ECONNREFUSED`, and `response` which is `undefined` for transport
failures. -/
structure AxiosError where
  code : Option String
  response : Option AxiosResponse
deriving DecidableEq, Repr

/-- What the catch handler of `urlUploadParser` does with the axios
rejection when it completes without a fault. -/
inductive UrlFetchHandling where
  | nextInvalidAssetUrl
  | nextRawError (e : AxiosError)
deriving DecidableEq, Repr

/-- The catch handler of `urlUploadParser` (`MiddlewareModule.js` lines
209-214): `if (e.code === 'ERR_INVALID_URL' || e.response.status === 404)`
report `INVALID_ASSET_URL`, else `next(e)`.  The disjunction
short-circuits, so `e.response` is only dereferenced when the code is
not `ERR_INVALID_URL`; when `e.response` is `undefined` (a transport
failure) that dereference throws a TypeError inside the catch block,
embedded as `Except.error`. -/
def urlUploadCatch (e : AxiosError) : Except JsFault UrlFetchHandling :=
  if e.code = some "ERR_INVALID_URL" then Except.ok UrlFetchHandling.nextInvalidAssetUrl
  else
    match e.response with
    | none => Except.error (JsFault.typeErrorUndefined "status")
    | some r =>
        if r.status = 404 then Except.ok UrlFetchHandling.nextInvalidAssetUrl
        else Except.ok (UrlFetchHandling.nextRawError e)

/-- The outcome of `rateLimiter.consume(req.ip)` (package
`rate-limiter-flexible`, external): the promise resolves with
`{ msBeforeNext, remainingPoints }` when the request is admitted and
rejects when the quota is exhausted. -/
inductive ConsumeOutcome where
  | resolved (msBeforeNext remainingPoints : Nat)
  | rejected (msBeforeNext : Nat)
deriving DecidableEq, Repr

/-- The rate-limit response headers set on admission
(`MiddlewareModule.js` lines 65-70).  `retryAfterMs` carries the raw
`msBeforeNext` (the source serializes it as `msBeforeNext / 1000`
seconds; the raw millisecond count is embedded to keep the arithmetic
exact). -/
structure RateLimitHeaders where
  retryAfterMs : Nat
  limit : Nat
  remaining : Nat
  resetAt : Nat
deriving DecidableEq, Repr

/-- What the rate-limiter middleware does with a request. -/
inductive RateLimitResult where
  | nextWithHeaders (h : RateLimitHeaders)
  | errorSent (resetAt : Nat)
deriving DecidableEq, Repr

/-- The middleware function returned by `rateLimiter`
(`MiddlewareModule.js` lines 61-75).  On admission, `resetAt` is
computed from `Date.now()` plus `msBeforeNext`, the headers are set and
`next()` is called.  On rejection, `consume` throws before `resetAt` is
ever assigned, and the catch block's `setData({ url: req.url, resetAt })`
references `resetAt` — a `const` declared inside the try block, hence
not in scope in the catch block — so evaluating the argument object
throws a ReferenceError before `res.sendError` runs, embedded as
`Except.error`:  `RateLimitResult.errorSent` is never produced. -/
def rateLimiterHandle (apiRequestLimit now : Nat) (outcome : ConsumeOutcome) :
    Except JsFault RateLimitResult :=
  match outcome with
  | ConsumeOutcome.resolved ms remaining =>
      Except.ok (RateLimitResult.nextWithHeaders
        { retryAfterMs := ms, limit := apiRequestLimit,
          remaining := remaining, resetAt := now + ms })
  | ConsumeOutcome.rejected _ =>
      Except.error (JsFault.referenceError "resetAt")

/-- Modelled from the spec: the atomic admission step of the rate
limiter.  The counting logic lives in the external
`rate-limiter-flexible` package backed by the shared Mongo counter
store; the repository only configures and calls it.  Per section 4.6 the
admission "atomically increments the counter and compares it against the
configured quota", and per section 6 the counter store "supports atomic
increment-and-read": one step takes the current count, increments it,
and admits exactly when the incremented count is within the quota. -/
def consumePoint (quota count : Nat) : Nat × Bool :=
  (count + 1, decide (count + 1 ≤ quota))

/-- Modelled from the spec: a sequence of atomic admissions against one
client identity's counter, threading the counter through `consumePoint`.
Because each admission is atomic with respect to the comparison, any
concurrent execution is equivalent to some sequential order of the
requests; quantifying over every input list therefore covers every
arrival order. -/
def admitAll (quota : Nat) : Nat → List α → List (α × Bool)
  | _, [] => []
  | count, r :: rs =>
      let step := consumePoint quota count
      (r, step.2) :: admitAll quota step.1 rs

/-- The requests accepted by a run of `admitAll` on a fresh window. -/
def acceptedRequests (quota : Nat) (reqs : List α) : List α :=
  ((admitAll quota 0 reqs).filter (fun p => p.2)).map (fun p => p.1)

/-- The requests rejected by a run of `admitAll` on a fresh window. -/
def rejectedRequests (quota : Nat) (reqs : List α) : List α :=
  ((admitAll quota 0 reqs).filter (fun p => !p.2)).map (fun p => p.1)

/-- A value stored in `req.body` after the parse callback has processed
a form field: the raw string when `JSON.parse` failed, the parsed value
(of an abstract type `γ`, since `JSON.parse` is an external collaborator)
when it succeeded, or `undefined` when the field's array was empty (then
`fields[k][0]` is `undefined` and `JSON.parse(undefined)` throws, leaving
the value `undefined`). -/
inductive BodyValue (γ : Type) where
  | undef
  | str (s : String)
  | parsed (v : γ)
deriving DecidableEq

/-- `req.body[k] = val`: JavaScript object assignment on a key-value
list — replace the value of an existing key, otherwise append the key. -/
def objSet (body : List (String × BodyValue γ)) (k : String) (v : BodyValue γ) :
    List (String × BodyValue γ) :=
  if body.any (fun kv => kv.1 == k) then
    body.map (fun kv => if kv.1 == k then (k, v) else kv)
  else body ++ [(k, v)]

/-- The field-unwrapping loop of the parse callback
(`MiddlewareModule.js` lines 158-162): for each field, take the first
element of its array, attempt `JSON.parse` (keeping the raw string when
it throws) and assign the result into `req.body`. -/
def mergeFields (jsonParse : String → Option γ)
    (body : List (String × BodyValue γ)) (fields : List (String × List String)) :
    List (String × BodyValue γ) :=
  fields.foldl (fun b kv =>
    let v : BodyValue γ :=
      match kv.2.head? with
      | none => BodyValue.undef
      | some s =>
          match jsonParse s with
          | some j => BodyValue.parsed j
          | none => BodyValue.str s
    objSet b kv.1 v) body

/-- The request object as the upload pipeline sees it: the logical body,
the `fileUpload` attachment (absent until the pipeline attaches it), and
all remaining request state, abstracted as a value of type `ρ` that the
embedded code has no access to. -/
structure ReqState (γ ρ : Type) where
  body : List (String × BodyValue γ)
  fileUpload : Option (List (String × List UploadedFile))
  rest : ρ
deriving DecidableEq

/-- The unzip pass of `fileUploadParser` (`MiddlewareModule.js` lines
171-179): for each form field, destructure the first file; if its
mimetype is a zip type, normalize the mimetype to `application/zip` and
rewrite `filepath` to the result of `unzip(filepath, filepath + "_unzip")`
(embedded as the external function `unzipFn`).  Other files are left
untouched.  (Formidable always yields non-empty per-field arrays; an
empty array is embedded as left unchanged.) -/
def unzipFiles (unzipFn : String → String)
    (files : List (String × List UploadedFile)) : List (String × List UploadedFile) :=
  files.map fun kv =>
    match kv.2 with
    | [] => kv
    | f :: rest =>
        if isZip f.mimetype then
          (kv.1, { f with mimetype := some "application/zip",
                          filepath := unzipFn f.filepath } :: rest)
        else kv

/-- The file records after a successful validation pass, kept in their
per-field structure (the source mutates the records inside the files
object in place; the embedding rebuilds the object from
`processFile`). -/
def updateFilesObj (sniff : String → Option String) (options : FileUploadOptions)
    (files : List (String × List UploadedFile)) : List (String × List UploadedFile) :=
  files.map fun kv => (kv.1, kv.2.map (fun f => (processFile sniff options f).file))

/-- The outcome of the formidable parse callback: the request object
after the callback (the callback mutates `req` before it can fail, so
the request is carried in every case), the error passed to `next` (if
any), and whether the validator and the unzip pass were invoked. -/
structure ParseOutcome (γ ρ : Type) where
  req : ReqState γ ρ
  err : Option (List Violation)
  validatorInvoked : Bool
  unzipInvoked : Bool
deriving DecidableEq

/-- The success path of the formidable parse callback of
`fileUploadParser` (`MiddlewareModule.js` lines 157-181), i.e. the
callback body when formidable reported no error: unwrap the form fields
into `req.body`; if the files object has no keys, call `next()` at once;
otherwise validate the files (passing any aggregated failure to `next`),
run the unzip pass when `options.unzip` is set, and attach the files
object to the request as `req.fileUpload`. -/
def onParseSuccess (jsonParse : String → Option γ) (sniff : String → Option String)
    (unzipFn : String → String) (options : FileUploadOptions) (req : ReqState γ ρ)
    (fields : List (String × List String)) (files : List (String × List UploadedFile)) :
    ParseOutcome γ ρ :=
  let req1 : ReqState γ ρ := { req with body := mergeFields jsonParse req.body fields }
  if files.isEmpty then
    { req := req1, err := none, validatorInvoked := false, unzipInvoked := false }
  else
    match validateUploadedFiles sniff files options with
    | Except.error violations =>
        { req := req1, err := some violations,
          validatorInvoked := true, unzipInvoked := false }
    | Except.ok _ =>
        let files1 := updateFilesObj sniff options files
        if options.unzip then
          { req := { req1 with fileUpload := some (unzipFiles unzipFn files1) },
            err := none, validatorInvoked := true, unzipInvoked := true }
        else
          { req := { req1 with fileUpload := some files1 },
            err := none, validatorInvoked := true, unzipInvoked := false }

/-! ### Helper lemmas and concrete sample inputs -/

lemma hasSizeViolation_append (l1 l2 : List Violation) :
    hasSizeViolation (l1 ++ l2) = (hasSizeViolation l1 || hasSizeViolation l2) := by
  simp [hasSizeViolation, List.any_append]

lemma hasTypeViolation_append (l1 l2 : List Violation) :
    hasTypeViolation (l1 ++ l2) = (hasTypeViolation l1 || hasTypeViolation l2) := by
  simp [hasTypeViolation, List.any_append]

lemma hasSizeViolation_sizeViolations (options : FileUploadOptions) (f : UploadedFile) :
    hasSizeViolation (sizeViolations options f) = decide (f.size > options.maxFileSize) := by
  by_cases h : f.size > options.maxFileSize <;> simp [sizeViolations, h, hasSizeViolation]

lemma hasTypeViolation_sizeViolations (options : FileUploadOptions) (f : UploadedFile) :
    hasTypeViolation (sizeViolations options f) = false := by
  by_cases h : f.size > options.maxFileSize <;> simp [sizeViolations, h, hasTypeViolation]

lemma processFile_hasSizeViolation (sniff : String → Option String)
    (options : FileUploadOptions) (f : UploadedFile) :
    hasSizeViolation (processFile sniff options f).violations
      = decide (f.size > options.maxFileSize) := by
  unfold processFile
  split
  · simp [hasSizeViolation_sizeViolations]
  · simp only [hasSizeViolation_append, hasSizeViolation_sizeViolations]
    split <;> simp [hasSizeViolation]

/-- A sniffer that matches no byte signature. -/
def noneSniff : String → Option String := fun _ => none

/-- A sniffer that reports a type outside every allowed set used below,
to witness that the validator's acceptance of a declared-allowed file
does not depend on what the sniffer would have said. -/
def evilSniff : String → Option String := fun _ => some "application/x-evil"

/-- A file whose declared type is in the allowed set of `pngOpts`. -/
def pngFile : UploadedFile :=
  { mimetype := some "image/png", originalFilename := "test.png",
    filepath := "/tmp/upload_1", size := 100 }

/-- A policy allowing only `image/png` with a 1000-byte limit. -/
def pngOpts : FileUploadOptions :=
  { expectedFileTypes := ["image/png"], maxFileSize := 1000 }

/-- A file exactly at the 1000-byte limit of `pngOpts`. -/
def fileExact : UploadedFile :=
  { mimetype := some "image/png", originalFilename := "exact.png",
    filepath := "/tmp/upload_2", size := 1000 }

/-- A file one byte over the 1000-byte limit of `pngOpts`. -/
def fileOver : UploadedFile :=
  { mimetype := some "image/png", originalFilename := "over.png",
    filepath := "/tmp/upload_3", size := 1001 }

/-- A file with a type violation against `pngOpts` (declared and sniffed
type both disallowed) and no size violation. -/
def fileA : UploadedFile :=
  { mimetype := some "text/plain", originalFilename := "a.txt",
    filepath := "/tmp/upload_a", size := 10 }

/-- A file with a size violation against `pngOpts` (declared type
allowed) and no type violation. -/
def fileB : UploadedFile :=
  { mimetype := some "image/png", originalFilename := "b.png",
    filepath := "/tmp/upload_b", size := 2000 }

/-- A `.srt` file with a disallowed declared type. -/
def srtFile : UploadedFile :=
  { mimetype := some "text/plain", originalFilename := "subtitle.srt",
    filepath := "/tmp/upload_s", size := 100 }

/-- A policy allowing only the synthetic subtitle type. -/
def srtOpts : FileUploadOptions :=
  { expectedFileTypes := ["application/x-subrip"], maxFileSize := 1000 }

/-! ### Claim theorems -/

/-- C1 counterexample: the claim "for no input does a file whose
declared mimetype is in the allowed set pass validation without the
sniffer having been consulted" is false on the code.  The file
`pngFile`, whose declared mimetype `image/png` is in the allowed set of
`pngOpts`, passes validation while `fileTypeFromFile` is never invoked —
even under a sniffer that would have reported the disallowed type
`application/x-evil`. -/
theorem C1_counterexample :
    optIncludes pngOpts.expectedFileTypes pngFile.mimetype = true
    ∧ validateUploadedFiles evilSniff [("file", [pngFile])] pngOpts = Except.ok [pngFile]
    ∧ sniffedAny evilSniff [("file", [pngFile])] pngOpts = false := by
  refine ⟨rfl, ?_, rfl⟩
  rfl

/-- C1 amended: a file whose declared mimetype is in the allowed set is
accepted as type-valid solely on the declared value: the sniffer is not
consulted, the file's type field is left unchanged, and only the size
check runs — this holds for every sniffer, policy and file. -/
theorem C1_declared_type_trusted (sniff : String → Option String)
    (options : FileUploadOptions) (f : UploadedFile)
    (h : optIncludes options.expectedFileTypes f.mimetype = true) :
    processFile sniff options f =
      { file := f, violations := sizeViolations options f, sniffed := false } := by
  simp [processFile, h]

/-- C1 witness: the amended statement at the concrete input
`evilSniff`, `pngOpts`, `pngFile`. -/
theorem C1_declared_type_trusted_witness :
    processFile evilSniff pngOpts pngFile =
      { file := pngFile, violations := sizeViolations pngOpts pngFile, sniffed := false } :=
  C1_declared_type_trusted evilSniff pngOpts pngFile (by decide)

/-- C2: for every sniffer, policy and file, a file whose size equals
`maxFileSize` produces no `FILE_EXCEEDS_MAX_SIZE` violation, and a file
whose size is `maxFileSize + 1` produces one. -/
theorem C2_size_boundary (sniff : String → Option String)
    (options : FileUploadOptions) (f : UploadedFile) :
    (f.size = options.maxFileSize →
      hasSizeViolation (processFile sniff options f).violations = false)
    ∧ (f.size = options.maxFileSize + 1 →
      hasSizeViolation (processFile sniff options f).violations = true) := by
  constructor <;> intro h <;>
    simp [processFile_hasSizeViolation, h, decide_eq_true_eq, decide_eq_false_iff_not]

/-- C2 witness: the boundary at the concrete policy `pngOpts`
(1000-byte limit) with `fileExact` (1000 bytes) and `fileOver`
(1001 bytes). -/
theorem C2_size_boundary_witness :
    hasSizeViolation (processFile noneSniff pngOpts fileExact).violations = false
    ∧ hasSizeViolation (processFile noneSniff pngOpts fileOver).violations = true :=
  ⟨(C2_size_boundary noneSniff pngOpts fileExact).1 rfl,
   (C2_size_boundary noneSniff pngOpts fileOver).2 rfl⟩

/-- C3: for every file set containing a file `A` with a type violation
(declared and sniffed type both disallowed, size within the limit) and a
file `B` with a size violation (declared type allowed, size over the
limit), a single call to the validator fails exactly once, with one
aggregated error carrying exactly both violations — neither violation is
reported on its own, and each file's other check still ran. -/
theorem C3_aggregated_failure (sniff : String → Option String)
    (options : FileUploadOptions) (A B : UploadedFile)
    (hA1 : optIncludes options.expectedFileTypes A.mimetype = false)
    (hA2 : optIncludes options.expectedFileTypes (sniffedMime sniff A) = false)
    (hA3 : A.size ≤ options.maxFileSize)
    (hB1 : optIncludes options.expectedFileTypes B.mimetype = true)
    (hB2 : B.size > options.maxFileSize) :
    validateUploadedFiles sniff [("a", [A]), ("b", [B])] options =
      Except.error
        [Violation.unexpectedFileTypes options.expectedFileTypes
          [A.originalFilename] [sniffedMime sniff A],
         Violation.fileExceedsMaxSize B.size options.maxFileSize] := by
  have hA3' : ¬ (A.size > options.maxFileSize) := not_lt.mpr hA3
  simp [validateUploadedFiles, flattenFiles, processFile, sizeViolations,
    hA1, hA2, hB1, hB2, hA3']

/-- C3 witness: the aggregation at the concrete inputs `fileA` (type
violation) and `fileB` (size violation) against `pngOpts`. -/
theorem C3_aggregated_failure_witness :
    validateUploadedFiles noneSniff [("a", [fileA]), ("b", [fileB])] pngOpts =
      Except.error
        [Violation.unexpectedFileTypes pngOpts.expectedFileTypes
          [fileA.originalFilename] [sniffedMime noneSniff fileA],
         Violation.fileExceedsMaxSize fileB.size pngOpts.maxFileSize] :=
  C3_aggregated_failure noneSniff pngOpts fileA fileB
    (by decide) (by decide) (by decide) (by decide) (by decide)

/-- C4: for every sniffer, policy and file — if the declared type is
absent from the allowed set, the sniffer is invoked and the file's type
is overwritten with the sniffed type (with the `.srt` fallback), and an
`UNEXPECTED_FILE_TYPES` violation is produced iff that sniffed type is
still absent from the allowed set; if the declared type is in the
allowed set, the type field is left unchanged, the sniffer is not
invoked and no type violation is produced. -/
theorem C4_type_check (sniff : String → Option String)
    (options : FileUploadOptions) (f : UploadedFile) :
    (processFile sniff options f).file.mimetype =
      (if optIncludes options.expectedFileTypes f.mimetype then f.mimetype
       else sniffedMime sniff f)
    ∧ (processFile sniff options f).sniffed
        = !(optIncludes options.expectedFileTypes f.mimetype)
    ∧ hasTypeViolation (processFile sniff options f).violations
        = (!(optIncludes options.expectedFileTypes f.mimetype)
            && !(optIncludes options.expectedFileTypes (sniffedMime sniff f))) := by
  by_cases h : optIncludes options.expectedFileTypes f.mimetype
  · simp [processFile, h, hasTypeViolation_sizeViolations]
  · refine ⟨by simp [processFile, h], by simp [processFile, h], ?_⟩
    by_cases h2 : optIncludes options.expectedFileTypes (sniffedMime sniff f)
    · simp [processFile, h, h2, hasTypeViolation_append, hasTypeViolation_sizeViolations]
    · simp only [processFile, h, if_neg, Bool.false_eq_true, if_false, h2,
        hasTypeViolation_append, hasTypeViolation_sizeViolations, Bool.or_false]
      simp [hasTypeViolation, h2]

/-- C5: for every sniffer, policy and file — if the declared type is not
allowed, byte-signature sniffing yields no match, and the original
filename has extension `.srt`, the file's type falls back to the fixed
synthetic subtitle type `application/x-subrip`, and when the allowed
list contains that type the file passes the type check with no
violation. -/
theorem C5_srt_fallback (sniff : String → Option String)
    (options : FileUploadOptions) (f : UploadedFile)
    (h1 : optIncludes options.expectedFileTypes f.mimetype = false)
    (h2 : sniff f.filepath = none)
    (h3 : extname f.originalFilename = ".srt")
    (h4 : options.expectedFileTypes.contains "application/x-subrip" = true) :
    (processFile sniff options f).file.mimetype = some "application/x-subrip"
    ∧ hasTypeViolation (processFile sniff options f).violations = false := by
  have hm : sniffedMime sniff f = some "application/x-subrip" := by
    simp [sniffedMime, h2, h3, jsFalsy]
  have hinc : optIncludes options.expectedFileTypes (some "application/x-subrip") = true := by
    simpa [optIncludes] using h4
  constructor
  · simp [processFile, h1, hm]
  · simp [processFile, h1, hm, hinc, hasTypeViolation_sizeViolations]

/-- C5 witness: the fallback at the concrete input `srtFile` under
`srtOpts` with a sniffer that matches nothing. -/
theorem C5_srt_fallback_witness :
    (processFile noneSniff srtOpts srtFile).file.mimetype = some "application/x-subrip"
    ∧ hasTypeViolation (processFile noneSniff srtOpts srtFile).violations = false :=
  C5_srt_fallback noneSniff srtOpts srtFile (by decide) rfl (by decide) (by decide)

/-- C6: the claim "archive expansion deletes the original archive iff
the remove-source option is true" fails on the code.  `fileUploadParser`
passes `options.removeZipSource || true` to `unzip`, which is `true` for
every options object — in particular with `removeZipSource: false` the
source archive is still deleted; and `urlUploadParser` passes
`options.removeSource`, a property never set anywhere in the repository,
so it passes `undefined` (falsy: never deletes), even when
`removeZipSource` is `true`. -/
theorem C6_remove_source_code_bug :
    (∀ options : FileUploadOptions, fileUploadRemoveSourceArg options = true)
    ∧ fileUploadRemoveSourceArg
        { expectedFileTypes := ["application/zip"], maxFileSize := 1000,
          removeZipSource := false } = true
    ∧ (∀ options : FileUploadOptions, jsTruthyOptBool (urlUploadRemoveSourceArg options) = false) :=
  ⟨fun options => by simp [fileUploadRemoveSourceArg], rfl, fun _ => rfl⟩

/-- C7: the claim "a transport failure of the outbound fetch surfaces a
distinct remote-fetch-failed error" fails on the code: for an axios
rejection with no `response` (a transport failure such as a refused
connection), the catch handler evaluates `e.response.status` on
`undefined` and throws a TypeError, so no error is reported at all.  The
404 half of the claim holds: a 404 response is reported (as
`INVALID_ASSET_URL`) before any file is staged. -/
theorem C7_remote_fetch_code_bug :
    urlUploadCatch { code := some "ECONNREFUSED", response := none }
      = Except.error (JsFault.typeErrorUndefined "status")
    ∧ urlUploadCatch { code := none, response := some { status := 404 } }
      = Except.ok UrlFetchHandling.nextInvalidAssetUrl := by
  refine ⟨?_, ?_⟩ <;> simp [urlUploadCatch]

/-- C8: the claim "the rate-limit rejection reports an error carrying
the computed reset time" fails on the code: on the rejection path
`consume` throws before `resetAt` is ever computed, and the catch
block's reference to `resetAt` (a `const` scoped to the try block)
throws a ReferenceError, so the rejection is an unhandled fault and no
error is reported.  The admission path does set the reset headers. -/
theorem C8_rate_limit_reset_code_bug :
    rateLimiterHandle 100 5000 (ConsumeOutcome.rejected 700)
      = Except.error (JsFault.referenceError "resetAt")
    ∧ rateLimiterHandle 100 5000 (ConsumeOutcome.resolved 700 42)
      = Except.ok (RateLimitResult.nextWithHeaders
          { retryAfterMs := 700, limit := 100, remaining := 42, resetAt := 5700 }) :=
  ⟨rfl, rfl⟩

lemma admitAll_accepted_length (quota : Nat) (reqs : List α) :
    ∀ count, ((admitAll quota count reqs).filter (fun p => p.2)).length
      = min (quota - count) reqs.length := by
  induction reqs with
  | nil => intro count; simp [admitAll]
  | cons r rs ih =>
      intro count
      by_cases h : count + 1 ≤ quota <;>
        simp [admitAll, consumePoint, List.filter_cons, h, ih (count + 1)] <;>
        omega

lemma admitAll_rejected_length (quota : Nat) (reqs : List α) :
    ∀ count, ((admitAll quota count reqs).filter (fun p => !p.2)).length
      = reqs.length - (quota - count) := by
  induction reqs with
  | nil => intro count; simp [admitAll]
  | cons r rs ih =>
      intro count
      by_cases h : count + 1 ≤ quota <;>
        simp [admitAll, consumePoint, List.filter_cons, h, ih (count + 1)] <;>
        omega

/-- C9 (modelled from the spec, see `consumePoint` and `admitAll`): on a
fresh window with quota `quota`, among `quota + 1` admission attempts —
in any arrival order, since each attempt atomically increments and
compares — exactly `quota` are accepted and exactly one is rejected. -/
theorem C9_quota_admissions (quota : Nat) (reqs : List α)
    (h : reqs.length = quota + 1) :
    (acceptedRequests quota reqs).length = quota
    ∧ (rejectedRequests quota reqs).length = 1 := by
  constructor
  · simp [acceptedRequests, admitAll_accepted_length, h]
  · simp [rejectedRequests, admitAll_rejected_length, h]

/-- C9 witness: quota 2, three admission attempts — two accepted, one
rejected. -/
theorem C9_quota_admissions_witness :
    (acceptedRequests 2 ["a", "b", "c"]).length = 2
    ∧ (rejectedRequests 2 ["a", "b", "c"]).length = 1 :=
  C9_quota_admissions 2 ["a", "b", "c"] rfl

/-- C10: when the multipart parse succeeds with zero files, the parse
callback still unwraps and merges the form fields into the request body,
then passes control onward with no error; `req.fileUpload` is not
attached, the validator and the unzip pass are not invoked, and all
other request state (`rest`) is unchanged. -/
theorem C10_zero_files (jsonParse : String → Option γ)
    (sniff : String → Option String) (unzipFn : String → String)
    (options : FileUploadOptions) (req : ReqState γ ρ)
    (fields : List (String × List String)) :
    onParseSuccess jsonParse sniff unzipFn options req fields [] =
      { req := { req with body := mergeFields jsonParse req.body fields },
        err := none, validatorInvoked := false, unzipInvoked := false }
    ∧ (onParseSuccess jsonParse sniff unzipFn options req fields []).req.fileUpload
        = req.fileUpload
    ∧ (onParseSuccess jsonParse sniff unzipFn options req fields []).req.rest
        = req.rest :=
  ⟨rfl, rfl, rfl⟩
